import Mathlib

/-!
Shallow embedding of the outlier-analysis core of the repository:
`src/utils/stats.ts` (calculateStats, detectOutliers), the cell-edit
commit logic of `src/components/DataEditor.tsx` (saveEdit), the AI-insight
service `src/services/geminiService.ts` (analyzeOutliersWithGemini), and
the insight-caching behaviour of `src/components/AnalysisDashboard.tsx`
(handleGeminiAnalysis together with the recompute effect), modelled as an
event-step relation.

JavaScript numbers are idealised as exact rationals; the JS value `NaN`
is modelled by a dedicated `Value.nan` constructor and a failed numeric
coercion (`Number(v)` returning `NaN`) by `Option.none`.  The square roots
taken by the source (`Math.sqrt`) are modelled by `Real.sqrt`, so the
statistics record lives partly in `ℝ`.
-/

namespace TabularAnalyst

/-- A cell value of a `DataRow` (`src/types.ts`: `string | number | boolean
| null`), extended with `nan` (the JS number `NaN`, storable in a cell by
`detectOutliers`) and `undefined` (reading an absent field). -/
inductive Value where
  | num (q : ℚ)
  | nan
  | str (s : String)
  | bool (b : Bool)
  | null
  | undefined
  deriving DecidableEq

/-- Digit characters to the natural number they denote (most significant
first). -/
def digitsVal (cs : List Char) : ℕ :=
  cs.foldl (fun n c => 10 * n + (c.toNat - 48)) 0

/-- Decimal literal `digits [. digits]` to a rational; `none` when the
shape is wrong or no digit is present.  Used to model the JS `Number`
conversion on strings (exponents, hex and `Infinity` forms are outside
the model). -/
def parseUnsigned (cs : List Char) : Option ℚ :=
  let intPart := cs.takeWhile Char.isDigit
  let rest := cs.dropWhile Char.isDigit
  match rest with
  | [] => if intPart = [] then none else some (digitsVal intPart)
  | c :: frac =>
    if c = '.' ∧ frac.all Char.isDigit ∧ (intPart ≠ [] ∨ frac ≠ []) then
      some ((digitsVal intPart : ℚ) + (digitsVal frac : ℚ) / (10 ^ frac.length : ℚ))
    else none

/-- Whitespace trimming of the JS `Number` conversion, at the character
level (the core `String.trim` is avoided because its byte-position
recursion does not reduce in the kernel). -/
def jsTrim (s : String) : List Char :=
  ((s.toList.dropWhile Char.isWhitespace).reverse.dropWhile Char.isWhitespace).reverse

/-- Model of `s.toLowerCase()` at the character level. -/
def jsToLower (s : String) : List Char :=
  s.toList.map Char.toLower

/-- JS `Number(s)` for a string `s`: trim whitespace, empty string is `0`,
optional sign followed by a decimal literal; `none` models `NaN`. -/
def strToNum (s : String) : Option ℚ :=
  match jsTrim s with
  | [] => some 0
  | c :: rest =>
    if c = '-' then (parseUnsigned rest).map (fun q => -q)
    else if c = '+' then parseUnsigned rest
    else parseUnsigned (c :: rest)

/-- JS `Number(v)` on a cell value; `none` models `NaN`
(`Number(null) = 0`, `Number(true) = 1`, `Number(false) = 0`,
`Number(undefined) = NaN`). -/
def toNum : Value → Option ℚ
  | .num q => some q
  | .nan => none
  | .str s => strToNum s
  | .bool b => some (if b then 1 else 0)
  | .null => some 0
  | .undefined => none

/-- A JS number (possibly `NaN`) stored back into a cell. -/
def jsNumToValue : Option ℚ → Value
  | some q => .num q
  | none => .nan

/-- A `DataRow`: a field assignment; absent fields read `undefined`. -/
def Row : Type := String → Value

/-- The all-absent row, used as a lookup default in statements. -/
def emptyRow : Row := fun _ => Value.undefined

/-- Result record of `calculateStats` (`stats.ts` lines 3-16):
`{ mean, stdDev, min, max }`.  `stdDev = Math.sqrt(variance)` forces the
field into `ℝ`; the other fields are exact rationals. -/
structure Stats where
  mean : ℚ
  stdDev : ℝ
  min : ℚ
  max : ℚ

/-- The numeric sample of `calculateStats`:
`data.map(row => Number(row[key])).filter(val => !isNaN(val))`.
`reduceOption` is exactly "keep the `some`s", i.e. the `!isNaN` filter
followed by reading the numbers. -/
def numericValues (data : List Row) (key : String) : List ℚ :=
  (data.map fun row => toNum (row key)).reduceOption

/-- The arithmetic part of `calculateStats` on the filtered values:
empty sample gives the `{0,0,0,0}` default, otherwise mean, population
variance, `stdDev = Math.sqrt(variance)` and naive extrema
(`Math.min(...values)` / `Math.max(...values)`). -/
noncomputable def statsOfValues (values : List ℚ) : Stats :=
  match values with
  | [] => { mean := 0, stdDev := 0, min := 0, max := 0 }
  | v :: vs =>
    let n : ℚ := (v :: vs).length
    let mean : ℚ := (v :: vs).sum / n
    let variance : ℚ := ((v :: vs).map fun x => (x - mean) ^ 2).sum / n
    { mean := mean
      stdDev := Real.sqrt (variance : ℝ)
      min := vs.foldl min v
      max := vs.foldl max v }

/-- The function `calculateStats(data, key)` of `stats.ts`. -/
noncomputable def calculateStats (data : List Row) (key : String) : Stats :=
  statsOfValues (numericValues data key)

/-- One axis z-score of `detectOutliers` (`stats.ts` lines 39-44):
`0` when the value is `NaN` or the standard deviation is `0`, else
`(val - mean) / stdDev`. -/
noncomputable def zScoreVal (stats : Stats) (v : Option ℚ) : ℝ :=
  match v with
  | some x => if stats.stdDev ≠ 0 then ((x : ℝ) - (stats.mean : ℝ)) / stats.stdDev else 0
  | none => 0

/-- An element of `processedData` (`OutlierDataPoint` of `src/types.ts`):
the spread row fields plus the three analysis fields. -/
structure OutlierDataPoint where
  fields : Row
  isOutlier : Bool
  zScoreX : ℝ
  zScoreY : ℝ

open Classical

/-- Scoring of one row in the `detectOutliers` loop (`stats.ts` lines
31-63): z-scores, joint z-distance, the flag test
`|zx| > threshold || |zy| > threshold || zDistance > threshold * 1.4`,
and the pushed object `{...row, isOutlier, zScoreX, zScoreY,
[xKey]: xVal, [yKey]: yVal}` (the `[yKey]` override being written last
wins when the two keys coincide).  The flag test on reals uses the
classical decidability instance opened above (low priority, so concrete
decidable propositions elsewhere are unaffected). -/
noncomputable def scoreRow (xStats yStats : Stats) (xKey yKey : String)
    (threshold : ℝ) (row : Row) : OutlierDataPoint :=
  let xVal := toNum (row xKey)
  let yVal := toNum (row yKey)
  let zScoreX := zScoreVal xStats xVal
  let zScoreY := zScoreVal yStats yVal
  let zDistance := Real.sqrt (zScoreX ^ 2 + zScoreY ^ 2)
  { fields := fun k =>
      if k = yKey then jsNumToValue yVal
      else if k = xKey then jsNumToValue xVal
      else row k
    isOutlier :=
      if |zScoreX| > threshold ∨ |zScoreY| > threshold ∨ zDistance > threshold * 1.4
      then true else false
    zScoreX := zScoreX
    zScoreY := zScoreY }

/-- Return record of `detectOutliers`. -/
structure DetectResult where
  processedData : List OutlierDataPoint
  outlierIndices : List ℕ

/-- The function `detectOutliers(data, xKey, yKey, threshold)` of `stats.ts`.  The
`forEach` loop pushes one scored row per input row (rendered as `map`)
and pushes the index exactly when the row is flagged, in iteration
order (rendered as a filter of `range`). -/
noncomputable def detectOutliers (data : List Row) (xKey yKey : String)
    (threshold : ℝ) : DetectResult :=
  let xStats := calculateStats data xKey
  let yStats := calculateStats data yKey
  let processedData := data.map (scoreRow xStats yStats xKey yKey threshold)
  { processedData := processedData
    outlierIndices := (List.range data.length).filter fun i =>
      match processedData.get? i with
      | some p => p.isOutlier
      | none => false }

/-- Default scored point, used only as a `getD` fallback in statements. -/
noncomputable def defaultScored : OutlierDataPoint :=
  { fields := emptyRow, isOutlier := false, zScoreX := 0, zScoreY := 0 }

/-! ### DataEditor: saveEdit (`src/components/DataEditor.tsx`) -/

/-- The JS test of whether `typeof v` is `number` (note that `typeof NaN` is `number` in JS). -/
def typeofIsNumber : Value → Bool
  | .num _ => true
  | .nan => true
  | _ => false

/-- The JS test of whether `typeof v` is `boolean`. -/
def typeofIsBoolean : Value → Bool
  | .bool _ => true
  | _ => false

/-- The type-coercion step of `saveEdit`:
when the original value is number-typed and `Number(editValue)` is not
`NaN`, store `Number(editValue)`; otherwise, when the original value is
boolean-typed, store whether `editValue.toLowerCase()` equals the word
true; otherwise keep the raw text. -/
def coerceEditValue (originalValue : Value) (editValue : String) : Value :=
  if typeofIsNumber originalValue && (strToNum editValue).isSome then
    jsNumToValue (strToNum editValue)
  else if typeofIsBoolean originalValue then
    Value.bool (jsToLower editValue == "true".toList)
  else
    Value.str editValue

/-- The `saveEdit` handler at the data level: replace row `globalIndex` by a copy with
`colKey` set to the coerced value (`newData[globalIndex] =
{...newData[globalIndex], [colKey]: finalValue}`).  The source computes
`globalIndex` by reference identity (`localData.indexOf(...)`) and
returns unchanged when it is `-1`; here the index is taken as given and
an out-of-range index leaves the data unchanged. -/
def saveEdit (localData : List Row) (globalIndex : ℕ) (colKey : String)
    (editValue : String) : List Row :=
  match localData.get? globalIndex with
  | none => localData
  | some row =>
    localData.set globalIndex fun k =>
      if k = colKey then coerceEditValue (row colKey) editValue else row k

/-! ### Gemini service (`src/services/geminiService.ts`) -/

/-- The `{summary, outlierAnalysis, actionableInsights}` payload. -/
structure GeminiInsight where
  summary : String
  outlierAnalysis : String
  actionableInsights : List String
  deriving DecidableEq

/-- Behaviour of the external `ai.models.generateContent` call: the
promise either rejects, or resolves with `response.text` (which may be
absent or empty). -/
inductive CallOutcome where
  | throwsError
  | returns (text : Option String)
  deriving DecidableEq

/-- The fixed payload returned when `!apiKey`. -/
def missingKeyFallback : GeminiInsight :=
  { summary := "API Key missing. Cannot generate AI insights."
    outlierAnalysis := "Please check your configuration."
    actionableInsights := [] }

/-- The fixed payload returned from the `catch` block. -/
def errorFallback : GeminiInsight :=
  { summary := "Failed to generate analysis."
    outlierAnalysis := "An error occurred while communicating with the AI model."
    actionableInsights := ["Try again later."] }

/-- The function `analyzeOutliersWithGemini`.  The prompt built from `dataSample`,
`columns`, `outlierIndices`, `xAxis`, `yAxis` only feeds the external
call, whose behaviour is abstracted by `outcome`; `parseResponse`
abstracts `JSON.parse` of the response text into the insight shape
(`none` models a parse failure, which the source catches).  `!apiKey`
is the JS falsy test, true for an absent or empty key.  `if (!result)
throw` makes an absent or empty response text take the catch path. -/
def analyzeOutliersWithGemini (apiKey : Option String)
    (parseResponse : String → Option GeminiInsight)
    (dataSample : List Row) (columns : List String)
    (outlierIndices : List ℕ) (xAxis yAxis : String)
    (outcome : CallOutcome) : GeminiInsight :=
  if apiKey.getD "" = "" then
    missingKeyFallback
  else
    match outcome with
    | .throwsError => errorFallback
    | .returns none => errorFallback
    | .returns (some text) =>
      if text = "" then errorFallback
      else
        match parseResponse text with
        | some insight => insight
        | none => errorFallback

/-! ### AnalysisDashboard insight cache (`src/components/AnalysisDashboard.tsx`)

The analysis inputs `{dataset, xKey, yKey, threshold}` and the
`aiInsight` / `aiLoading` state of the dashboard, with the events that
touch them: an input change (the `useEffect` on
`[dataset, xKey, yKey, threshold]` recomputes the local analysis and
does `setAiInsight(null)`), the start of `handleGeminiAnalysis`
(`setAiLoading(true)`), and the completion of the awaited call
(`setAiInsight(result); setAiLoading(false)`).  The completion event
carries the inputs captured when the request was issued; the source
applies the result unconditionally, never consulting them. -/

/-- The inputs a Gemini request is issued against; the dataset is
abstracted by an identity. -/
structure AnalysisInputs where
  datasetId : ℕ
  xKey : String
  yKey : String
  threshold : ℚ
  deriving DecidableEq

/-- The dashboard state relevant to the insight cache. -/
structure DashState where
  inputs : AnalysisInputs
  aiInsight : Option GeminiInsight
  aiLoading : Bool
  deriving DecidableEq

/-- Events acting on the insight cache. -/
inductive DashEvent where
  | changeInputs (newInputs : AnalysisInputs)
  | startRequest
  | completeRequest (captured : AnalysisInputs) (result : GeminiInsight)

/-- One event step of the dashboard, as the source behaves:
`completeRequest` stores the response unconditionally (the captured
inputs are ignored by `handleGeminiAnalysis`). -/
def dashStep (s : DashState) : DashEvent → DashState
  | .changeInputs i => { s with inputs := i, aiInsight := none }
  | .startRequest => { s with aiLoading := true }
  | .completeRequest _ result =>
    { s with aiInsight := some result, aiLoading := false }

/-- Run a sequence of dashboard events. -/
def dashRun (s : DashState) (events : List DashEvent) : DashState :=
  events.foldl dashStep s

/-! ### Concrete inputs used by counterexamples and witnesses -/

/-- A row whose `x` cell is the non-numeric string `abc`. -/
def cRow : Row := fun k => if k = "x" then Value.str "abc" else Value.num 1

/-- Witness row: x = 5, y = 1. -/
def wRow1 : Row := fun k => if k = "x" then Value.num 5 else Value.num 1

/-- Witness row: x = 5, y = 9. -/
def wRow2 : Row := fun k => if k = "x" then Value.num 5 else Value.num 9

/-- Witness dataset: constant in `x`, varying in `y`. -/
def wData : List Row := [wRow1, wRow2]

/-- A row with no numerically-coercible cell at key `x`. -/
def nRow : Row := fun _ => Value.str "abc"

/-- Dashboard-model inputs before the change. -/
def inputsA : AnalysisInputs :=
  { datasetId := 0, xKey := "x", yKey := "y", threshold := 2 }

/-- Dashboard-model inputs after the change (larger threshold). -/
def inputsB : AnalysisInputs :=
  { datasetId := 0, xKey := "x", yKey := "y", threshold := 3 }

/-- The insight carried by the late response. -/
def staleInsight : GeminiInsight :=
  { summary := "stale", outlierAnalysis := "stale", actionableInsights := [] }

/-- The race trace: a request is issued under `inputsA`, the threshold
changes to `inputsB`, then the response for `inputsA` arrives. -/
def staleTrace : List DashEvent :=
  [DashEvent.startRequest, DashEvent.changeInputs inputsB,
   DashEvent.completeRequest inputsA staleInsight]

/-- Substitution used to state claim C9: a null cell read as the number 0
and a boolean cell as 1/0, leaving every other value unchanged. -/
def normalizeValue : Value → Value
  | .null => .num 0
  | .bool b => .num (if b then 1 else 0)
  | v => v

/-! ## Helper lemmas -/

lemma ite_true_false_eq_true_iff (p : Prop) [Decidable p] :
    (if p then true else false) = true ↔ p := by
  by_cases h : p <;> simp [h]

lemma scoreRow_isOutlier_iff (xStats yStats : Stats) (xKey yKey : String)
    (t : ℝ) (row : Row) :
    (scoreRow xStats yStats xKey yKey t row).isOutlier = true ↔
      (|zScoreVal xStats (toNum (row xKey))| > t ∨
       |zScoreVal yStats (toNum (row yKey))| > t ∨
       Real.sqrt (zScoreVal xStats (toNum (row xKey)) ^ 2 +
         zScoreVal yStats (toNum (row yKey)) ^ 2) > t * 1.4) := by
  exact ite_true_false_eq_true_iff _

lemma mem_outlierIndices_iff {data : List Row} {xKey yKey : String} {t : ℝ}
    {i : ℕ} :
    i ∈ (detectOutliers data xKey yKey t).outlierIndices ↔
      ∃ h : i < data.length,
        (scoreRow (calculateStats data xKey) (calculateStats data yKey)
          xKey yKey t (data.get ⟨i, h⟩)).isOutlier = true := by
  show i ∈ (List.range data.length).filter _ ↔ _
  rw [List.mem_filter, List.mem_range]
  constructor
  · rintro ⟨h, hp⟩
    refine ⟨h, ?_⟩
    rw [List.get?_eq_getElem?, List.getElem?_map, List.getElem?_eq_getElem h] at hp
    simpa [List.get_eq_getElem] using hp
  · rintro ⟨h, hp⟩
    refine ⟨h, ?_⟩
    rw [List.get?_eq_getElem?, List.getElem?_map, List.getElem?_eq_getElem h]
    simpa [List.get_eq_getElem] using hp

lemma processedData_getD {data : List Row} {xKey yKey : String} {t : ℝ}
    {i : ℕ} (h : i < data.length) :
    (detectOutliers data xKey yKey t).processedData.getD i defaultScored =
      scoreRow (calculateStats data xKey) (calculateStats data yKey)
        xKey yKey t (data.get ⟨i, h⟩) := by
  show (data.map _).getD i defaultScored = _
  rw [List.getD_eq_getElem?_getD, List.getElem?_map, List.getElem?_eq_getElem h]
  simp [List.get_eq_getElem]

lemma getD_emptyRow {data : List Row} {i : ℕ} (h : i < data.length) :
    data.getD i emptyRow = data.get ⟨i, h⟩ := by
  rw [List.getD_eq_getElem?_getD, List.getElem?_eq_getElem h]
  simp [List.get_eq_getElem]

lemma scoreRow_isOutlier_mono {xStats yStats : Stats} {xKey yKey : String}
    {t1 t2 : ℝ} (h : t1 ≤ t2) (row : Row) :
    (scoreRow xStats yStats xKey yKey t2 row).isOutlier = true →
    (scoreRow xStats yStats xKey yKey t1 row).isOutlier = true := by
  rw [scoreRow_isOutlier_iff, scoreRow_isOutlier_iff]
  rintro (hx | hy | hd)
  · exact Or.inl (lt_of_le_of_lt h hx)
  · exact Or.inr (Or.inl (lt_of_le_of_lt h hy))
  · refine Or.inr (Or.inr (lt_of_le_of_lt ?_ hd))
    have h14 : (0 : ℝ) ≤ 1.4 := by norm_num
    exact mul_le_mul_of_nonneg_right h h14

/-! ## Claim theorems -/

/-- C8: `detectOutliers` returns exactly one scored row per input row in
the same order (`processedData` has the input's length), and
`outlierIndices` is a strictly ascending list of positions into that
order (a sublist of `range data.length`). -/
theorem detectOutliers_order_and_length (data : List Row) (xKey yKey : String)
    (t : ℝ) :
    (detectOutliers data xKey yKey t).processedData.length = data.length ∧
    List.Sublist (detectOutliers data xKey yKey t).outlierIndices
      (List.range data.length) ∧
    List.Pairwise (· < ·) (detectOutliers data xKey yKey t).outlierIndices := by
  refine ⟨List.length_map _ _, List.filter_sublist _, ?_⟩
  exact List.Pairwise.sublist (List.filter_sublist _) (List.pairwise_lt_range _)

/-- C10: for every index `i` into the input, the `i`-th scored row has
`isOutlier = true` exactly when `i` is a member of `outlierIndices`; the
two outputs never disagree. -/
theorem detectOutliers_isOutlier_iff_mem (data : List Row) (xKey yKey : String)
    (t : ℝ) (i : ℕ) (h : i < data.length) :
    ((detectOutliers data xKey yKey t).processedData.getD i defaultScored).isOutlier
        = true ↔
      i ∈ (detectOutliers data xKey yKey t).outlierIndices := by
  rw [mem_outlierIndices_iff, processedData_getD h]
  constructor
  · intro hp
    exact ⟨h, hp⟩
  · rintro ⟨h2, hp⟩
    exact hp

/-- Witness for C10 at a concrete dataset and index. -/
theorem detectOutliers_isOutlier_iff_mem_witness :
    0 < wData.length ∧
    (((detectOutliers wData "x" "y" 2).processedData.getD 0 defaultScored).isOutlier
        = true ↔
      0 ∈ (detectOutliers wData "x" "y" 2).outlierIndices) :=
  ⟨by decide, detectOutliers_isOutlier_iff_mem wData "x" "y" 2 0 (by decide)⟩

/-- C2: threshold monotonicity — for `t1 ≤ t2` every index flagged at the
larger threshold is flagged at the smaller one, and the number of flagged
indices never increases as the threshold increases. -/
theorem detectOutliers_threshold_antitone (data : List Row) (xKey yKey : String)
    (t1 t2 : ℝ) (h : t1 ≤ t2) :
    (∀ i ∈ (detectOutliers data xKey yKey t2).outlierIndices,
        i ∈ (detectOutliers data xKey yKey t1).outlierIndices) ∧
    (detectOutliers data xKey yKey t2).outlierIndices.length ≤
      (detectOutliers data xKey yKey t1).outlierIndices.length := by
  constructor
  · intro i hmem
    rw [mem_outlierIndices_iff] at hmem ⊢
    obtain ⟨hlen, hp⟩ := hmem
    exact ⟨hlen, scoreRow_isOutlier_mono h _ hp⟩
  · have key : ∀ i : ℕ,
        (fun i =>
          match (data.map (scoreRow (calculateStats data xKey)
              (calculateStats data yKey) xKey yKey t2)).get? i with
          | some p => p.isOutlier
          | none => false) i = true →
        (fun i =>
          match (data.map (scoreRow (calculateStats data xKey)
              (calculateStats data yKey) xKey yKey t1)).get? i with
          | some p => p.isOutlier
          | none => false) i = true := by
      intro i
      simp only [List.get?_eq_getElem?, List.getElem?_map]
      cases hi : data[i]? with
      | none => simp
      | some r =>
        simpa using scoreRow_isOutlier_mono h r
    exact List.Sublist.length_le
      (List.monotone_filter_right (List.range data.length) key)

/-- Witness for C2 at a concrete dataset and threshold pair. -/
theorem detectOutliers_threshold_antitone_witness :
    (1 : ℝ) ≤ 2 ∧
    ((∀ i ∈ (detectOutliers wData "x" "y" 2).outlierIndices,
        i ∈ (detectOutliers wData "x" "y" 1).outlierIndices) ∧
     (detectOutliers wData "x" "y" 2).outlierIndices.length ≤
       (detectOutliers wData "x" "y" 1).outlierIndices.length) :=
  ⟨by norm_num, detectOutliers_threshold_antitone wData "x" "y" 1 2 (by norm_num)⟩

lemma numericValues_const {key : String} {c : ℚ} :
    ∀ {data : List Row}, (∀ r ∈ data, toNum (r key) = some c) →
      numericValues data key = List.replicate data.length c := by
  intro data
  induction data with
  | nil => intro _; rfl
  | cons r rs ih =>
    intro hc
    have hr : toNum (r key) = some c := hc r (List.mem_cons_self r rs)
    have hrs : ∀ x ∈ rs, toNum (x key) = some c :=
      fun x hx => hc x (List.mem_cons_of_mem r hx)
    show ((r :: rs).map fun row => toNum (row key)).reduceOption = _
    rw [List.map_cons, hr, List.reduceOption_cons_of_some, List.length_cons,
      List.replicate_succ]
    exact congrArg (c :: ·) (ih hrs)

lemma statsOfValues_cons_stdDev (v : ℚ) (vs : List ℚ) :
    (statsOfValues (v :: vs)).stdDev =
      Real.sqrt
        ((((v :: vs).map fun x =>
            (x - (v :: vs).sum / ((v :: vs).length : ℚ)) ^ 2).sum /
          ((v :: vs).length : ℚ) : ℚ) : ℝ) := rfl

lemma statsOfValues_replicate_stdDev (n : ℕ) (c : ℚ) :
    (statsOfValues (List.replicate n c)).stdDev = 0 := by
  cases n with
  | zero => rfl
  | succ m =>
    rw [List.replicate_succ, statsOfValues_cons_stdDev]
    have hmean : (c :: List.replicate m c).sum /
        ((c :: List.replicate m c).length : ℚ) = c := by
      have h1 : (c :: List.replicate m c).sum = ((m : ℚ) + 1) * c := by
        rw [List.sum_cons, List.sum_replicate, nsmul_eq_mul]
        ring
      have h2 : ((c :: List.replicate m c).length : ℚ) = (m : ℚ) + 1 := by
        rw [List.length_cons, List.length_replicate]
        push_cast
        ring
      rw [h1, h2]
      have hne : (m : ℚ) + 1 ≠ 0 := by positivity
      field_simp
    rw [hmean]
    have hmap : ((c :: List.replicate m c).map fun x => (x - c) ^ 2) =
        List.replicate (m + 1) 0 := by
      rw [← List.replicate_succ, List.map_replicate]
      simp
    rw [hmap]
    simp [List.sum_replicate]

lemma calculateStats_const_stdDev {data : List Row} {key : String} {c : ℚ}
    (hc : ∀ r ∈ data, toNum (r key) = some c) :
    (calculateStats data key).stdDev = 0 := by
  show (statsOfValues (numericValues data key)).stdDev = 0
  rw [numericValues_const hc, statsOfValues_replicate_stdDev]

/-- C1: `detectOutliers` flags row `i` exactly when `|zScoreX| > t`, or
`|zScoreY| > t`, or `sqrt(zScoreX² + zScoreY²) > t * 1.4`, where each
z-score is `(value − mean) / stdDev` when the cell coerces to a number
and the axis standard deviation is nonzero, and `0` otherwise; in
particular a constant column yields z-score `0` for every row on that
axis. -/
theorem detectOutliers_flag_iff (data : List Row) (xKey yKey : String)
    (t : ℝ) (i : ℕ) (h : i < data.length) :
    let xStats := calculateStats data xKey
    let yStats := calculateStats data yKey
    let row := data.getD i emptyRow
    let zx : ℝ := match toNum (row xKey) with
      | some x =>
        if xStats.stdDev ≠ 0 then ((x : ℝ) - (xStats.mean : ℝ)) / xStats.stdDev
        else 0
      | none => 0
    let zy : ℝ := match toNum (row yKey) with
      | some y0 =>
        if yStats.stdDev ≠ 0 then ((y0 : ℝ) - (yStats.mean : ℝ)) / yStats.stdDev
        else 0
      | none => 0
    (i ∈ (detectOutliers data xKey yKey t).outlierIndices ↔
      (|zx| > t ∨ |zy| > t ∨ Real.sqrt (zx ^ 2 + zy ^ 2) > t * 1.4)) ∧
    (∀ c : ℚ, (∀ r ∈ data, toNum (r xKey) = some c) → zx = 0) := by
  intro xStats yStats row zx zy
  have hrow : row = data.get ⟨i, h⟩ := getD_emptyRow h
  have hzx : zx = zScoreVal xStats (toNum (row xKey)) := rfl
  have hzy : zy = zScoreVal yStats (toNum (row yKey)) := rfl
  constructor
  · rw [mem_outlierIndices_iff, hzx, hzy, hrow]
    constructor
    · rintro ⟨h2, hp⟩
      rw [scoreRow_isOutlier_iff] at hp
      exact hp
    · intro hcond
      refine ⟨h, ?_⟩
      rw [scoreRow_isOutlier_iff]
      exact hcond
  · intro c hc
    have hstd : xStats.stdDev = 0 := calculateStats_const_stdDev hc
    rw [hzx]
    cases htn : toNum (row xKey) with
    | none => rfl
    | some q => simp [zScoreVal, hstd]

/-- Witness for C1 at a concrete dataset, axis pair and index. -/
theorem detectOutliers_flag_iff_witness :
    0 < wData.length ∧
    (let xStats := calculateStats wData "x"
     let yStats := calculateStats wData "y"
     let row := wData.getD 0 emptyRow
     let zx : ℝ := match toNum (row "x") with
       | some x =>
         if xStats.stdDev ≠ 0 then ((x : ℝ) - (xStats.mean : ℝ)) / xStats.stdDev
         else 0
       | none => 0
     let zy : ℝ := match toNum (row "y") with
       | some y0 =>
         if yStats.stdDev ≠ 0 then ((y0 : ℝ) - (yStats.mean : ℝ)) / yStats.stdDev
         else 0
       | none => 0
     (0 ∈ (detectOutliers wData "x" "y" 2).outlierIndices ↔
       (|zx| > 2 ∨ |zy| > 2 ∨ Real.sqrt (zx ^ 2 + zy ^ 2) > 2 * 1.4)) ∧
     (∀ c : ℚ, (∀ r ∈ wData, toNum (r "x") = some c) → zx = 0)) :=
  ⟨by decide, detectOutliers_flag_iff wData "x" "y" 2 0 (by decide)⟩

/-- C4: `calculateStats` is determined by exactly the values that coerce
to a number (non-coercing values are discarded, no error is possible:
the function is total), and an empty numeric sample yields the
`{mean: 0, stdDev: 0, min: 0, max: 0}` default. -/
theorem calculateStats_numeric_filter (data : List Row) (key : String) :
    (∀ (data2 : List Row) (key2 : String),
        numericValues data key = numericValues data2 key2 →
        calculateStats data key = calculateStats data2 key2) ∧
    (numericValues data key = [] →
      calculateStats data key = { mean := 0, stdDev := 0, min := 0, max := 0 }) := by
  constructor
  · intro data2 key2 hv
    show statsOfValues (numericValues data key) = statsOfValues (numericValues data2 key2)
    rw [hv]
  · intro hv
    show statsOfValues (numericValues data key) = _
    rw [hv]
    rfl

/-- Witness for C4: a dataset whose only cell does not coerce to a
number produces the all-zero statistics record. -/
theorem calculateStats_numeric_filter_witness :
    numericValues [nRow] "x" = [] ∧
    calculateStats [nRow] "x" = { mean := 0, stdDev := 0, min := 0, max := 0 } :=
  ⟨by decide, (calculateStats_numeric_filter [nRow] "x").2 (by decide)⟩

lemma toNum_normalizeValue (v : Value) : toNum (normalizeValue v) = toNum v := by
  cases v with
  | bool b => cases b <;> rfl
  | _ => rfl

/-- C9 (implicit): `calculateStats` counts a null cell as the number 0
and a boolean cell as 1/0 — replacing them by those numbers changes no
statistic — and only values whose coercion fails (is `NaN`) are
excluded: dropping exactly the rows whose cell fails to coerce also
changes no statistic. -/
theorem calculateStats_null_bool_coercion (data : List Row) (key : String) :
    calculateStats (data.map fun r => fun k => normalizeValue (r k)) key =
      calculateStats data key ∧
    calculateStats (data.filter fun r => (toNum (r key)).isSome) key =
      calculateStats data key ∧
    toNum Value.null = some 0 ∧
    toNum (Value.bool true) = some 1 ∧
    toNum (Value.bool false) = some 0 := by
  refine ⟨?_, ?_, rfl, rfl, rfl⟩
  · show statsOfValues _ = statsOfValues _
    congr 1
    show ((data.map fun r => fun k => normalizeValue (r k)).map
        fun row => toNum (row key)).reduceOption = _
    rw [List.map_map]
    refine congrArg List.reduceOption ?_
    exact List.map_congr_left fun r _ => toNum_normalizeValue (r key)
  · show statsOfValues _ = statsOfValues _
    congr 1
    induction data with
    | nil => rfl
    | cons r rs ih =>
      show numericValues ((r :: rs).filter _) key = numericValues (r :: rs) key
      rw [List.filter_cons]
      cases htn : toNum (r key) with
      | none =>
        rw [if_neg (by decide)]
        show numericValues (rs.filter _) key =
          ((r :: rs).map fun row => toNum (row key)).reduceOption
        rw [List.map_cons, htn, List.reduceOption_cons_of_none]
        exact ih
      | some q =>
        rw [if_pos (by simp : ((some q : Option ℚ)).isSome = true)]
        show numericValues (r :: rs.filter _) key =
          ((r :: rs).map fun row => toNum (row key)).reduceOption
        show ((r :: rs.filter _).map fun row => toNum (row key)).reduceOption = _
        rw [List.map_cons, List.map_cons, htn, List.reduceOption_cons_of_some,
          List.reduceOption_cons_of_some]
        exact congrArg (q :: ·) ih

/-- C3 counterexample: the claim predicts that committing the text
`True` on a boolean cell stores `false`; the code lower-cases the text
first, so it stores `true`. -/
theorem saveEdit_boolean_True_counterexample :
    ¬ (coerceEditValue (Value.bool false) "True" = Value.bool false) := by
  decide

/-- C3 amended: on commit, a numeric-typed original stores the parsed
number when the buffer parses and the raw text otherwise; a boolean
original stores `true` exactly when the lower-cased text equals `true`
(so `True` and `TRUE` also store `true`, while e.g. `1` stores `false`);
any other original type stores the raw text.  The committed row replaces
the edited cell only. -/
theorem saveEdit_coercion_rules (orig : Value) (s : String) :
    (typeofIsNumber orig = true →
      coerceEditValue orig s =
        (match strToNum s with
         | some q => Value.num q
         | none => Value.str s)) ∧
    (∀ b : Bool, orig = Value.bool b →
      coerceEditValue orig s = Value.bool (jsToLower s == "true".toList)) ∧
    (typeofIsNumber orig = false → typeofIsBoolean orig = false →
      coerceEditValue orig s = Value.str s) ∧
    (∀ (localData : List Row) (gi : ℕ) (ck : String) (row : Row),
      localData.get? gi = some row →
      (saveEdit localData gi ck s).get? gi =
        some fun k => if k = ck then coerceEditValue (row ck) s else row k) := by
  refine ⟨?_, ?_, ?_, ?_⟩
  · intro hn
    unfold coerceEditValue
    cases hs : strToNum s with
    | some q => rw [hn]; simp [jsNumToValue, hs]
    | none =>
      have hb : typeofIsBoolean orig = false := by
        cases orig <;> simp_all [typeofIsNumber, typeofIsBoolean]
      simp [hb]
  · rintro b rfl
    unfold coerceEditValue
    simp [typeofIsNumber, typeofIsBoolean]
  · intro hn hb
    unfold coerceEditValue
    rw [hn, hb]
    simp
  · intro localData gi ck row hget
    unfold saveEdit
    rw [hget]
    have hlen : gi < localData.length := by
      rw [List.get?_eq_getElem?] at hget
      exact (List.getElem?_eq_some_iff.mp hget).1
    rw [List.get?_eq_getElem?, List.getElem?_set_self hlen]

/-- Witness for C3 (amended) at a numeric cell and the buffer `42`. -/
theorem saveEdit_coercion_rules_witness :
    typeofIsNumber (Value.num 5) = true ∧
    coerceEditValue (Value.num 5) "42" = Value.num 42 := by
  refine ⟨by decide, ?_⟩
  have h := (saveEdit_coercion_rules (Value.num 5) "42").1 (by decide)
  rw [h]
  rw [show strToNum "42" = some (42 : ℚ) from by decide]

/-- C5 counterexample: the claim predicts that a non-numeric original
appears as the number `0` in the scored view; the code stores
`Number(value)`, which is `NaN` for the string `abc`. -/
theorem detectOutliers_scored_nonnumeric_not_zero :
    ¬ (((detectOutliers [cRow] "x" "y" 2).processedData.getD 0
          defaultScored).fields "x" = Value.num 0) := by
  have h0 : (0 : ℕ) < [cRow].length := by decide
  have h : ((detectOutliers [cRow] "x" "y" 2).processedData.getD 0
      defaultScored).fields "x" = Value.nan := by
    rw [processedData_getD h0]
    show (if ("x" : String) = "y" then jsNumToValue (toNum (([cRow].get ⟨0, h0⟩) "y"))
      else if ("x" : String) = "x" then jsNumToValue (toNum (([cRow].get ⟨0, h0⟩) "x"))
      else ([cRow].get ⟨0, h0⟩) "x") = Value.nan
    rw [if_neg (by decide), if_pos rfl]
    have : [cRow].get ⟨0, h0⟩ = cRow := rfl
    rw [this]
    decide
  rw [h]
  decide

/-- C5 amended: each scored row equals the original row with the
`xField`/`yField` cells overwritten by their coerced numeric form (the
`yField` write is last and wins when the keys coincide); a cell whose
value fails numeric coercion appears as `NaN` — not `0` — in the scored
view. -/
theorem detectOutliers_scored_row_overwrite (data : List Row)
    (xKey yKey : String) (t : ℝ) (i : ℕ) (h : i < data.length) :
    (((detectOutliers data xKey yKey t).processedData.getD i
        defaultScored).fields =
      fun k =>
        if k = yKey then jsNumToValue (toNum ((data.getD i emptyRow) yKey))
        else if k = xKey then jsNumToValue (toNum ((data.getD i emptyRow) xKey))
        else (data.getD i emptyRow) k) ∧
    (toNum ((data.getD i emptyRow) xKey) = none → xKey ≠ yKey →
      ((detectOutliers data xKey yKey t).processedData.getD i
          defaultScored).fields xKey = Value.nan) := by
  have hrow : data.getD i emptyRow = data.get ⟨i, h⟩ := getD_emptyRow h
  constructor
  · rw [processedData_getD h, hrow]
    rfl
  · intro hnone hne
    rw [processedData_getD h]
    rw [hrow] at hnone
    show (if xKey = yKey then jsNumToValue (toNum ((data.get ⟨i, h⟩) yKey))
      else if xKey = xKey then jsNumToValue (toNum ((data.get ⟨i, h⟩) xKey))
      else (data.get ⟨i, h⟩) xKey) = Value.nan
    rw [if_neg hne, if_pos rfl, hnone]
    rfl

/-- Witness for C5 (amended): the non-numeric cell `abc` appears as
`NaN` in the scored view. -/
theorem detectOutliers_scored_row_overwrite_witness :
    0 < [cRow].length ∧
    ((detectOutliers [cRow] "x" "y" 2).processedData.getD 0
        defaultScored).fields "x" = Value.nan := by
  refine ⟨by decide, ?_⟩
  exact (detectOutliers_scored_row_overwrite [cRow] "x" "y" 2 0
    (by decide)).2 (by decide) (by decide)

/-- C6: the dashboard applies a completed AI response unconditionally.
On the trace "request issued under `inputsA`; inputs change to
`inputsB`; the response for `inputsA` arrives", the late response
becomes the displayed cached insight even though the current inputs
differ from the request's captured inputs — the behaviour the spec
requires the orchestrator to prevent. -/
theorem staleInsight_applied :
    (dashRun { inputs := inputsA, aiInsight := none, aiLoading := false }
        staleTrace).aiInsight = some staleInsight ∧
    (dashRun { inputs := inputsA, aiInsight := none, aiLoading := false }
        staleTrace).inputs ≠ inputsA := by
  refine ⟨rfl, ?_⟩
  decide

/-- C7: `analyzeOutliersWithGemini` is total (no exception reaches the
caller), returns the fixed missing-key payload whenever the key is
absent or empty, returns the fixed error payload on any collaborator
failure (rejected call, absent or empty response text, unparseable
response), and otherwise returns the parsed insight. -/
theorem analyzeOutliersWithGemini_fallback (apiKey : Option String)
    (parseResponse : String → Option GeminiInsight) (dataSample : List Row)
    (columns : List String) (outlierIndices : List ℕ) (xAxis yAxis : String)
    (outcome : CallOutcome) :
    (apiKey.getD "" = "" →
      analyzeOutliersWithGemini apiKey parseResponse dataSample columns
        outlierIndices xAxis yAxis outcome = missingKeyFallback) ∧
    (apiKey.getD "" ≠ "" →
      (outcome = CallOutcome.throwsError ∨ outcome = CallOutcome.returns none ∨
        outcome = CallOutcome.returns (some "") ∨
        (∃ text : String, outcome = CallOutcome.returns (some text) ∧
          parseResponse text = none)) →
      analyzeOutliersWithGemini apiKey parseResponse dataSample columns
        outlierIndices xAxis yAxis outcome = errorFallback) ∧
    (analyzeOutliersWithGemini apiKey parseResponse dataSample columns
        outlierIndices xAxis yAxis outcome = missingKeyFallback ∨
     analyzeOutliersWithGemini apiKey parseResponse dataSample columns
        outlierIndices xAxis yAxis outcome = errorFallback ∨
     ∃ text : String, parseResponse text =
        some (analyzeOutliersWithGemini apiKey parseResponse dataSample columns
          outlierIndices xAxis yAxis outcome)) := by
  refine ⟨?_, ?_, ?_⟩
  · intro hk
    unfold analyzeOutliersWithGemini
    rw [if_pos hk]
  · intro hk hfail
    unfold analyzeOutliersWithGemini
    rw [if_neg hk]
    rcases hfail with rfl | rfl | rfl | ⟨text, rfl, hp⟩
    · rfl
    · rfl
    · simp
    · by_cases ht : text = ""
      · subst ht
        simp
      · simp [ht, hp]
  · unfold analyzeOutliersWithGemini
    by_cases hk : apiKey.getD "" = ""
    · rw [if_pos hk]
      exact Or.inl rfl
    · rw [if_neg hk]
      cases outcome with
      | throwsError => exact Or.inr (Or.inl rfl)
      | returns text =>
        cases text with
        | none => exact Or.inr (Or.inl rfl)
        | some t =>
          refine Or.inr ?_
          by_cases ht : t = ""
          · refine Or.inl ?_
            subst ht
            simp
          · cases hp : parseResponse t with
            | none => exact Or.inl (by simp [ht, hp])
            | some insight => exact Or.inr ⟨t, by simp [ht, hp]⟩

/-- Witness for C7: with a present key and a rejected collaborator call,
the result is the fixed error payload. -/
theorem analyzeOutliersWithGemini_fallback_witness :
    ((some "k" : Option String).getD "" ≠ "") ∧
    analyzeOutliersWithGemini (some "k") (fun _ => none) [] [] [] "x" "y"
      CallOutcome.throwsError = errorFallback := by
  refine ⟨by decide, ?_⟩
  exact (analyzeOutliersWithGemini_fallback (some "k") (fun _ => none) [] [] []
    "x" "y" CallOutcome.throwsError).2.1 (by decide) (Or.inl rfl)

end TabularAnalyst
